import Mathlib

/-!
# Verification of the fast-pin-pon radio network subsystem

Shallow embedding of the Python sources under `src/network/` (relay.py,
unit.py, bridge.py, bridge_emitter.py, bridge_receiver.py, crypto.py)
as executable Lean definitions, together with theorems settling the
frozen claims about the transport protocol, the retry engine, the
duplicate tracker, the gateway reconciliation logic and the XOR cipher.

Strings are modelled as `List Char` (Python `str`), bytes as `Nat`
values below 256, and Python machine-free integers as `Int`/`Nat` with
explicit `% 256` / `% 65536` where the code masks with `& 0xFF` /
`& 0xFFFF`.
-/

namespace FPP

/-! ## Python string helpers

Models of the CPython builtins used by the sources: `str.split`,
`str.strip`, `int(...)`, `str(...)`, `str.upper`, `str.lower`.  They are
modelled for ASCII text, which is all the wire protocol produces. -/

/-- Model of Python `s.split(sep)` for a one-character separator. -/
def pySplit (sep : Char) : List Char → List (List Char)
  | [] => [[]]
  | c :: cs =>
    if c = sep then [] :: pySplit sep cs
    else
      match pySplit sep cs with
      | [] => [[c]]
      | h :: t => (c :: h) :: t

/-- ASCII whitespace recognised by Python `str.strip()` / `int()`. -/
def isPySpace (c : Char) : Bool :=
  c = ' ' || c = '\t' || c = '\n' || c = '\x0d' || c = '\x0b' || c = '\x0c'

/-- Model of Python `s.strip()` (ASCII whitespace). -/
def pyStrip (l : List Char) : List Char :=
  ((l.dropWhile isPySpace).reverse.dropWhile isPySpace).reverse

/-- The ASCII digit character for a value below ten. -/
def digitChar : Nat → Char
  | 0 => '0' | 1 => '1' | 2 => '2' | 3 => '3' | 4 => '4'
  | 5 => '5' | 6 => '6' | 7 => '7' | 8 => '8' | _ => '9'

/-- Decimal digits of a natural number (model of Python `str(n)` for
`n ≥ 0`), written with explicit fuel so that it reduces in the kernel. -/
def natDigitsAux : Nat → Nat → List Char
  | 0, _ => []
  | fuel + 1, n =>
    if n < 10 then [digitChar n]
    else natDigitsAux fuel (n / 10) ++ [digitChar (n % 10)]

/-- Decimal representation of a natural number. -/
def natDigits (n : Nat) : List Char := natDigitsAux (n + 1) n

/-- Model of Python `str(i)` for an `int`. -/
def intStr : Int → List Char
  | Int.ofNat n => natDigits n
  | Int.negSucc n => '-' :: natDigits (n + 1)

/-- Whether a character is an ASCII digit. -/
def isDig (c : Char) : Bool := decide ('0' ≤ c ∧ c ≤ '9')

/-- Digits (with CPython's single-underscore grouping, which must sit
between two digits) after the first digit of an integer literal,
accumulating the value. -/
def pyDigitsRest (acc : Nat) : List Char → Option Nat
  | [] => some acc
  | [c] => if isDig c then some (acc * 10 + (c.toNat - 48)) else none
  | c :: c2 :: cs =>
    if isDig c then pyDigitsRest (acc * 10 + (c.toNat - 48)) (c2 :: cs)
    else if c = '_' ∧ isDig c2 then pyDigitsRest (acc * 10 + (c2.toNat - 48)) cs
    else none

/-- Unsigned decimal literal body accepted by Python `int(...)`. -/
def pyIntCore : List Char → Option Nat
  | [] => none
  | c :: cs => if isDig c then pyDigitsRest (c.toNat - 48) cs else none

/-- Model of Python `int(s)`: optional surrounding whitespace, optional
sign, decimal digits with underscore grouping; `none` models the
`ValueError` raised on anything else. -/
def pyInt (l : List Char) : Option Int :=
  match pyStrip l with
  | [] => none
  | c :: r =>
    if c = '+' then (pyIntCore r).map Int.ofNat
    else if c = '-' then (pyIntCore r).map (fun n => -(n : Int))
    else (pyIntCore (c :: r)).map Int.ofNat

/-- ASCII uppercase of one character (model of Python `str.upper` on
ASCII input). -/
def charUpper (c : Char) : Char :=
  if 'a' ≤ c ∧ c ≤ 'z' then Char.ofNat (c.toNat - 32) else c

/-- ASCII lowercase of one character (model of Python `str.lower` on
ASCII input). -/
def charLower (c : Char) : Char :=
  if 'A' ≤ c ∧ c ≤ 'Z' then Char.ofNat (c.toNat + 32) else c

/-- Model of Python `s.upper()` (ASCII). -/
def pyUpper (l : List Char) : List Char := l.map charUpper

/-- Model of Python `s.lower()` (ASCII). -/
def pyLower (l : List Char) : List Char := l.map charLower

/-! ## Packet codec

From `src/network/relay.py` (`compute_crc8`, `compute_signature`,
`parse_secure_message`), `src/network/unit.py` (`build_secure_message`,
identical `compute_crc8` / `compute_signature`) and
`src/network/bridge_emitter.py` (`crc8`, `sign`, `build_packet`).
Python `& 0xFF` / `& 0xFFFF` are rendered as `% 256` / `% 65536`. -/

/-- Shared secret `SECRET_KEY = "FPP2024"` of unit.py / relay.py (the
emitter inlines the same literal in `sign`). -/
def SECRET_KEY : List Char := ['F', 'P', 'P', '2', '0', '2', '4']

/-- One step of `compute_crc8`'s loop:
`crc = (crc + ord(char)) & 0xFF; crc = ((crc << 1) | (crc >> 7)) & 0xFF`. -/
def crcStep (crc : Nat) (c : Char) : Nat :=
  let t := (crc + c.toNat) % 256
  (Nat.lor (2 * t) (t / 128)) % 256

/-- The fold of `compute_crc8` starting from an arbitrary accumulator. -/
def crcFold (crc : Nat) : List Char → Nat
  | [] => crc
  | c :: cs => crcFold (crcStep crc c) cs

/-- `compute_crc8(data)` of relay.py / unit.py (= `crc8` of
bridge_emitter.py): rotate-add fold over the payload characters. -/
def compute_crc8 (data : List Char) : Nat := crcFold 0 data

/-- The indexed fold of `compute_signature`:
`sig = (sig + ord(char) * (i + 1)) & 0xFFFF`. -/
def sigFold (sig i : Nat) : List Char → Nat
  | [] => sig
  | c :: cs => sigFold ((sig + c.toNat * (i + 1)) % 65536) (i + 1) cs

/-- `compute_signature(data, seq)` of relay.py / unit.py (= `sign` of
bridge_emitter.py): weighted sum over `SECRET_KEY + data + str(seq)`. -/
def compute_signature (data : List Char) (seq : Int) : Nat :=
  sigFold 0 0 (SECRET_KEY ++ data ++ intStr seq)

/-- `build_secure_message(data)` of unit.py, with the global
`sequence_number` made an explicit argument.  Returns the frame text
`"{seq}|{data}|{crc}|{sig}"`, the sequence used, and the updated
counter `(sequence_number + 1) & 0xFF`. -/
def build_secure_message (data : List Char) (sequence_number : Nat) :
    List Char × Nat × Nat :=
  let seq := sequence_number
  let crc := compute_crc8 data
  let sig := compute_signature data (seq : Int)
  let message :=
    natDigits seq ++ ('|' :: (data ++ ('|' :: (natDigits crc ++ ('|' :: natDigits sig)))))
  (message, seq, (sequence_number + 1) % 256)

/-- `build_packet(data)` of bridge_emitter.py, with the global `out_seq`
made an explicit argument: `f"{out_seq}|{data}|{crc8(data)}|{sign(data, out_seq)}"`. -/
def build_packet (data : List Char) (out_seq : Nat) : List Char × Nat :=
  (natDigits out_seq ++ ('|' :: (data ++ ('|' :: (natDigits (compute_crc8 data)
      ++ ('|' :: natDigits (compute_signature data (out_seq : Int))))))),
   (out_seq + 1) % 256)

/-- The error strings returned by `parse_secure_message`. -/
inductive ParseFailure where
  | FORMAT | CRC | SIG | PARSE
  deriving DecidableEq, Repr

/-- `parse_secure_message(packet)` of relay.py.  Returns the Python
triple `(seq, data, error)`; the `except (ValueError, ...)` handler that
catches a failing `int(...)` conversion is the `PARSE` branch. -/
def parse_secure_message (packet : List Char) :
    Option Int × Option (List Char) × Option ParseFailure :=
  match pySplit '|' packet with
  | [p0, p1, p2, p3] =>
    match pyInt p0, pyInt p2, pyInt p3 with
    | some seq, some received_crc, some received_sig =>
      if (compute_crc8 p1 : Int) ≠ received_crc then
        (none, none, some ParseFailure.CRC)
      else if (compute_signature p1 seq : Int) ≠ received_sig then
        (none, none, some ParseFailure.SIG)
      else (some seq, some p1, none)
    | _, _, _ => (none, none, some ParseFailure.PARSE)
  | _ => (none, none, some ParseFailure.FORMAT)

/-! ## Duplicate tracker

`is_duplicate(call_sign, seq)` of relay.py, with the module-level
`last_sequences` dictionary made an explicit argument (modelled as a
total function to `Option`). -/

/-- The `last_sequences` dictionary: sender call sign to last accepted
sequence. -/
def SeqMap : Type := List Char → Option Int

/-- The empty `last_sequences` dictionary. -/
def emptySeqMap : SeqMap := fun _ => none

/-- `is_duplicate(call_sign, seq)` of relay.py: returns the boolean
result and the updated `last_sequences` dictionary. -/
def is_duplicate (call_sign : List Char) (seq : Int) (last_sequences : SeqMap) :
    Bool × SeqMap :=
  if last_sequences call_sign = some seq then
    (true, last_sequences)
  else
    (false, fun x => if x = call_sign then some seq else last_sequences x)

/-- Threads `is_duplicate` through a list of observations, collecting
the returned booleans. -/
def runObserve (m : SeqMap) : List (List Char × Int) → List Bool × SeqMap
  | [] => ([], m)
  | o :: rest =>
    let r := is_duplicate o.1 o.2 m
    let rr := runObserve r.2 rest
    (r.1 :: rr.1, rr.2)

/-! ## Retry engine

From unit.py: the globals `waiting_for_ack`, `last_message`,
`retry_count`, `last_retry_time`, `sequence_number` gathered into a
state record, and `send_secure` / `check_ack` as state transformers.
`radio.receive()` is an explicit `Option` input; `running_time()` an
explicit `Nat` input; a returned `Option (List Char)` reports what
`radio.send` transmitted. -/

/-- `ACK_TIMEOUT = 500` (unit.py). -/
def ACK_TIMEOUT : Nat := 500

/-- `MAX_RETRIES = 3` (unit.py). -/
def MAX_RETRIES : Nat := 3

/-- The mutable globals of unit.py that `send_secure` / `check_ack`
read and write. -/
structure UnitState where
  waiting_for_ack : Bool
  last_message : List Char
  retry_count : Nat
  last_retry_time : Nat
  sequence_number : Nat
  deriving DecidableEq, Repr

/-- Python `packet.startswith("ACK:")`. -/
def startsWithAck (p : List Char) : Bool :=
  p.take 4 = ['A', 'C', 'K', ':']

/-- `send_secure(data)` of unit.py: builds the frame, transmits it,
enters the awaiting-acknowledgment state.  Returns the new state and
the transmitted frame text. -/
def send_secure (data : List Char) (st : UnitState) (now : Nat) :
    UnitState × List Char :=
  let (message, _seq, seqno') := build_secure_message data st.sequence_number
  ({ waiting_for_ack := true
     last_message := message
     retry_count := 0
     last_retry_time := now
     sequence_number := seqno' },
   message)

/-- The timeout / retransmission tail of `check_ack` (the code past the
receive check): retransmit the stored frame if the ACK timeout elapsed
and retries remain, give up (clear `waiting_for_ack`) once
`MAX_RETRIES` retransmissions have been spent. -/
def ackTimeoutStep (st : UnitState) (now : Nat) :
    UnitState × Option (List Char) :=
  if now - st.last_retry_time > ACK_TIMEOUT then
    if st.retry_count < MAX_RETRIES then
      ({ st with retry_count := st.retry_count + 1, last_retry_time := now },
       some st.last_message)
    else
      ({ st with waiting_for_ack := false }, none)
  else (st, none)

/-- `check_ack()` of unit.py: one scheduling tick.  `packet` is what
`radio.receive()` returned; `now` is `running_time()`.  The second
component is the frame retransmitted by this tick, if any.  Note the
code clears `waiting_for_ack` on any packet starting with `"ACK:"`,
without comparing the acknowledged sequence. -/
def check_ack (st : UnitState) (packet : Option (List Char)) (now : Nat) :
    UnitState × Option (List Char) :=
  if st.waiting_for_ack = false then (st, none)
  else
    match packet with
    | some p =>
      if startsWithAck p then ({ st with waiting_for_ack := false }, none)
      else ackTimeoutStep st now
    | none => ackTimeoutStep st now

/-- Runs `check_ack` over a list of ticks, each carrying the received
packet and the current time; collects every retransmitted frame. -/
def runTicks (st : UnitState) :
    List (Option (List Char) × Nat) → UnitState × List (List Char)
  | [] => (st, [])
  | pt :: rest =>
    let r := check_ack st pt.1 pt.2
    let rr := runTicks r.1 rest
    (rr.1, r.2.toList ++ rr.2)

/-! ## Gateway reconciliation: bridge_receiver.py -/

namespace BridgeReceiver

/-- `STATUS_MAP` of bridge_receiver.py. -/
def STATUS_MAP : List (List Char × List Char) :=
  [("AVL".toList, "available".toList),
   ("UWY".toList, "under_way".toList),
   ("ONS".toList, "on_site".toList),
   ("UNA".toList, "unavailable".toList),
   ("OFF".toList, "offline".toList)]

/-- Dictionary lookup `upper in STATUS_MAP` / `STATUS_MAP[upper]`. -/
def mapLookup (k : List Char) : List (List Char × List Char) → Option (List Char)
  | [] => none
  | (k', v) :: rest => if k = k' then some v else mapLookup k rest

/-- `normalize_status(status)` of bridge_receiver.py: empty statuses
become `"available"`, known upper-cased codes are translated through
`STATUS_MAP`, anything else is lower-cased. -/
def normalize_status (status : List Char) : List Char :=
  if status = [] then "available".toList
  else
    match mapLookup (pyUpper (pyStrip status)) STATUS_MAP with
    | some v => v
    | none => pyLower status

/-- `parse_sta_message(message)` of bridge_receiver.py: recognises
`STA:microbit_id,status` (extra comma fields ignored). -/
def parse_sta_message (message : List Char) : Option (List Char × List Char) :=
  if message.take 4 = "STA:".toList then
    match pySplit ',' (message.drop 4) with
    | p0 :: p1 :: _ => some (pyStrip p0, pyStrip p1)
    | _ => none
  else none

/-- The per-device `last_statuses` cache of the receiver loop. -/
def StatusMap : Type := List Char → Option (List Char)

/-- The empty `last_statuses` cache. -/
def emptyStatusMap : StatusMap := fun _ => none

/-- `update_unit_status` of bridge_receiver.py issues one PATCH with
`normalize_status(status)` as body; the HTTP outcome is abstracted as
the boolean `writeOk`.  Returns `(success, body status sent)`. -/
def update_unit_status (writeOk : Bool) (status : List Char) :
    Bool × List Char :=
  (writeOk, normalize_status status)

/-- `handle_sta_message(line, microbit_to_unit, last_statuses, api_url)`
of bridge_receiver.py.  `microbit_to_unit` is the mapping cache;
`writeOk` abstracts the backend PATCH outcome.  Returns
`(handled, new last_statuses, whether a status PATCH was issued)`. -/
def handle_sta_message (line : List Char)
    (microbit_to_unit : List Char → Option (List Char))
    (last_statuses : StatusMap) (writeOk : Bool) :
    Bool × StatusMap × Bool :=
  match parse_sta_message line with
  | none => (false, last_statuses, false)
  | some (microbit_id, status) =>
    match microbit_to_unit microbit_id with
    | some unit_id =>
      if unit_id ≠ [] ∧ last_statuses microbit_id ≠ some status then
        if (update_unit_status writeOk status).1 then
          (true, fun x => if x = microbit_id then some status else last_statuses x,
           true)
        else (true, last_statuses, true)
      else (true, last_statuses, false)
    | none => (true, last_statuses, false)

end BridgeReceiver

/-! ## Gateway reconciliation: bridge.py -/

namespace Bridge

/-- `STATUS_MAP` of bridge.py. -/
def STATUS_MAP : List (List Char × List Char) :=
  [("AVL".toList, "available".toList),
   ("ERT".toList, "en_route".toList),
   ("ONS".toList, "on_site".toList),
   ("MNT".toList, "maintenance".toList),
   ("OFF".toList, "offline".toList)]

/-- `STATUS_MAP.get(status, "available")` of bridge.py: the status body
that `update_unit_status` / `create_new_unit` send to the backend. -/
def api_status (status : List Char) : List Char :=
  match BridgeReceiver.mapLookup status STATUS_MAP with
  | some v => v
  | none => "available".toList

/-- `update_unit_status` of bridge.py issues one PATCH with
`STATUS_MAP.get(status, "available")` as body; the HTTP outcome is
abstracted as `writeOk`.  Returns `(success, body status sent)`. -/
def update_unit_status (writeOk : Bool) (status : List Char) :
    Bool × List Char :=
  (writeOk, api_status status)

/-- `process_unit_data(api_url, call_sign, lat, lon, status, last_statuses)`
of bridge.py, with the network abstracted: `unit_id` is what
`get_or_create_unit` resolved to (`none` models a falsy result) and
`writeOk` the outcome of the status PATCH.  Latitude/longitude only feed
the location PATCH, which never touches `last_statuses`.  Returns the
new `last_statuses`, whether a status PATCH was issued, and whether a
location PATCH was issued.  Note `last_statuses[call_sign] = status`
runs whether or not the status PATCH succeeded. -/
def process_unit_data (unit_id : Option (List Char)) (writeOk : Bool)
    (call_sign status : List Char) (last_statuses : BridgeReceiver.StatusMap) :
    BridgeReceiver.StatusMap × Bool × Bool :=
  match unit_id with
  | none => (last_statuses, false, false)
  | some _ =>
    if last_statuses call_sign = some status then
      (last_statuses, false, true)
    else
      ((fun x => if x = call_sign then some status else last_statuses x),
       true, true)

end Bridge

/-! ## XOR cipher: crypto.py

Python strings are modelled here as `List Nat` of code points, so that
`chr` of an arbitrary 21-bit value (which Lean's `Char` cannot always
hold) stays representable.  `base64.b64encode` / `b64decode` are
modelled over byte lists; `b64decode enc = none` models the exceptions
(`binascii.Error`, or the ASCII-encoding `ValueError`) that
`xor_decrypt`'s `except` clause catches. -/

/-- The standard base64 alphabet character (as a code point) of a 6-bit
value. -/
def b64Char (v : Nat) : Nat :=
  if v < 26 then 65 + v
  else if v < 52 then 97 + (v - 26)
  else if v < 62 then 48 + (v - 52)
  else if v = 62 then 43
  else 47

/-- Inverse of `b64Char`: the 6-bit value of an alphabet character. -/
def b64Val (c : Nat) : Option Nat :=
  if 65 ≤ c ∧ c ≤ 90 then some (c - 65)
  else if 97 ≤ c ∧ c ≤ 122 then some (c - 97 + 26)
  else if 48 ≤ c ∧ c ≤ 57 then some (c - 48 + 52)
  else if c = 43 then some 62
  else if c = 47 then some 63
  else none

/-- The `'='` padding character. -/
def b64Pad : Nat := 61

/-- `base64.b64encode` over a byte list. -/
def b64encode : List Nat → List Nat
  | [] => []
  | [b0] => [b64Char (b0 / 4), b64Char (b0 % 4 * 16), b64Pad, b64Pad]
  | [b0, b1] =>
    [b64Char (b0 / 4), b64Char (b0 % 4 * 16 + b1 / 16),
     b64Char (b1 % 16 * 4), b64Pad]
  | b0 :: b1 :: b2 :: rest =>
    b64Char (b0 / 4) :: b64Char (b0 % 4 * 16 + b1 / 16) ::
    b64Char (b1 % 16 * 4 + b2 / 64) :: b64Char (b2 % 64) :: b64encode rest

/-- Decoding of the cleaned (alphabet-and-padding only) character
stream, four characters at a time; `none` models `binascii.Error`. -/
def b64decodeGroups : List Nat → Option (List Nat)
  | [] => some []
  | c0 :: c1 :: c2 :: c3 :: rest =>
    match b64Val c0, b64Val c1 with
    | some v0, some v1 =>
      if c2 = b64Pad then
        if c3 = b64Pad ∧ rest = [] then some [v0 * 4 + v1 / 16] else none
      else
        match b64Val c2 with
        | some v2 =>
          if c3 = b64Pad then
            if rest = [] then some [v0 * 4 + v1 / 16, v1 % 16 * 16 + v2 / 4]
            else none
          else
            match b64Val c3 with
            | some v3 =>
              (b64decodeGroups rest).map
                (fun t => (v0 * 4 + v1 / 16) :: (v1 % 16 * 16 + v2 / 4) ::
                          (v2 % 4 * 64 + v3) :: t)
            | none => none
        | none => none
    | _, _ => none
  | _ => none

/-- `base64.b64decode` on a Python string: non-ASCII input raises, other
non-alphabet characters are discarded, then the stream must decode in
groups of four. -/
def b64decode (s : List Nat) : Option (List Nat) :=
  if s.any (fun c => 128 ≤ c) then none
  else b64decodeGroups (s.filter (fun c => (b64Val c).isSome || c = b64Pad))

/-- The encryption loop of `xor_encrypt`: per character,
`ord(char) ^ ord(key[i % len(key)])` appended to a `bytearray`; `none`
models the `ZeroDivisionError` on an empty key or the `ValueError`
`bytearray.append` raises on a value at or above 256. -/
def xorLoop (key : List Nat) : Nat → List Nat → Option (List Nat)
  | _, [] => some []
  | i, d :: ds =>
    if key.length = 0 then none
    else
      let v := Nat.xor d (key.getD (i % key.length) 0)
      if v < 256 then (xorLoop key (i + 1) ds).map (v :: ·) else none

/-- `xor_encrypt(data, key)` of crypto.py; `none` models an uncaught
exception escaping the function. -/
def xor_encrypt (data key : List Nat) : Option (List Nat) :=
  (xorLoop key 0 data).map b64encode

/-- The decryption loop of `xor_decrypt`: `chr(byte ^ ord(key_char))`;
`none` models the `ZeroDivisionError` on an empty key. -/
def decryptLoop (key : List Nat) : Nat → List Nat → Option (List Nat)
  | _, [] => some []
  | i, b :: bs =>
    if key.length = 0 then none
    else
      (decryptLoop key (i + 1) bs).map
        (Nat.xor b (key.getD (i % key.length) 0) :: ·)

/-- `xor_decrypt(encrypted_data, key)` of crypto.py: any exception in
the `try` block (base64 failure or empty key) returns the input
unchanged. -/
def xor_decrypt (encrypted_data key : List Nat) : List Nat :=
  match b64decode encrypted_data with
  | none => encrypted_data
  | some bs =>
    match decryptLoop key 0 bs with
    | none => encrypted_data
    | some out => out

/-! ## Lemmas about the string helpers -/

theorem pySplit_no_sep {sep : Char} {l : List Char} (h : sep ∉ l) :
    pySplit sep l = [l] := by
  induction l with
  | nil => rfl
  | cons c cs ih =>
    have hc : c ≠ sep := fun hc => h (hc ▸ List.mem_cons_self c cs)
    have hcs : sep ∉ cs := fun hm => h (List.mem_cons_of_mem c hm)
    simp only [pySplit, if_neg hc, ih hcs]

theorem pySplit_append_sep {sep : Char} {a : List Char} (h : sep ∉ a)
    (l : List Char) : pySplit sep (a ++ sep :: l) = a :: pySplit sep l := by
  induction a with
  | nil => simp [pySplit]
  | cons c cs ih =>
    have hc : c ≠ sep := fun hc => h (hc ▸ List.mem_cons_self c cs)
    have hcs : sep ∉ cs := fun hm => h (List.mem_cons_of_mem c hm)
    simp only [List.cons_append, pySplit, List.append_eq, if_neg hc, ih hcs]

theorem pyStrip_of_no_space {l : List Char} (h : ∀ c ∈ l, isPySpace c = false) :
    pyStrip l = l := by
  unfold pyStrip
  have h1 : List.dropWhile isPySpace l = l := by
    cases l with
    | nil => rfl
    | cons c cs => simp [List.dropWhile_cons, h c (List.mem_cons_self c cs)]
  rw [h1]
  have h2 : List.dropWhile isPySpace l.reverse = l.reverse := by
    cases hr : l.reverse with
    | nil => rfl
    | cons c cs =>
      have hc : c ∈ l := by
        rw [← List.mem_reverse, hr]
        exact List.mem_cons_self c cs
      simp [List.dropWhile_cons, h c hc]
  rw [h2, List.reverse_reverse]

/-- Facts about digit characters, settled by enumeration. -/
theorem digitChar_facts : ∀ d, d < 10 →
    isDig (digitChar d) = true ∧ (digitChar d).toNat - 48 = d ∧
    isPySpace (digitChar d) = false ∧
    digitChar d ≠ '+' ∧ digitChar d ≠ '-' ∧ digitChar d ≠ '|' ∧
    digitChar d ≠ '_' ∧ digitChar d ≠ ',' ∧ digitChar d ≠ '\n' := by decide

theorem natDigitsAux_mem {fuel n : Nat} (h : n < fuel) :
    ∀ c ∈ natDigitsAux fuel n, ∃ d, d < 10 ∧ c = digitChar d := by
  induction fuel generalizing n with
  | zero => omega
  | succ fuel ih =>
    intro c hc
    by_cases hn : n < 10
    · simp only [natDigitsAux, if_pos hn, List.mem_singleton] at hc
      exact ⟨n, hn, hc⟩
    · simp only [natDigitsAux, if_neg hn, List.mem_append, List.mem_singleton] at hc
      rcases hc with hc | hc
      · exact ih (by omega) c hc
      · exact ⟨n % 10, Nat.mod_lt _ (by omega), hc⟩

theorem natDigitsAux_ne_nil {fuel n : Nat} (h : n < fuel) :
    natDigitsAux fuel n ≠ [] := by
  cases fuel with
  | zero => omega
  | succ fuel =>
    by_cases hn : n < 10
    · simp [natDigitsAux, if_pos hn]
    · simp [natDigitsAux, if_neg hn]

theorem pyDigitsRest_digits {l : List Char}
    (h : ∀ c ∈ l, isDig c = true) (acc : Nat) :
    pyDigitsRest acc l =
      some (l.foldl (fun a c => a * 10 + (c.toNat - 48)) acc) := by
  induction l generalizing acc with
  | nil => rfl
  | cons c cs ih =>
    have hc := h c (List.mem_cons_self c cs)
    have hcs : ∀ x ∈ cs, isDig x = true :=
      fun x hx => h x (List.mem_cons_of_mem _ hx)
    cases cs with
    | nil => simp [pyDigitsRest, hc]
    | cons c2 cs2 =>
      simp only [pyDigitsRest, if_pos hc, List.foldl_cons]
      exact ih hcs _

theorem natDigitsAux_foldl {fuel n : Nat} (h : n < fuel) (acc : Nat) :
    (natDigitsAux fuel n).foldl (fun a c => a * 10 + (c.toNat - 48)) acc =
      acc * 10 ^ (natDigitsAux fuel n).length + n := by
  induction fuel generalizing n acc with
  | zero => omega
  | succ fuel ih =>
    by_cases hn : n < 10
    · have hv := (digitChar_facts n hn).2.1
      simp [natDigitsAux, if_pos hn, hv]
    · have hrec : n / 10 < fuel := by omega
      have hv := (digitChar_facts (n % 10) (Nat.mod_lt _ (by omega))).2.1
      simp only [natDigitsAux, if_neg hn, List.foldl_append, List.foldl_cons,
        List.foldl_nil, List.length_append, List.length_cons, List.length_nil,
        ih hrec, hv]
      have hdm : n / 10 * 10 + n % 10 = n := by omega
      ring_nf
      omega

theorem natDigits_mem {n : Nat} :
    ∀ c ∈ natDigits n, ∃ d, d < 10 ∧ c = digitChar d :=
  natDigitsAux_mem (Nat.lt_succ_self n)

theorem natDigits_ne_nil {n : Nat} : natDigits n ≠ [] :=
  natDigitsAux_ne_nil (Nat.lt_succ_self n)

theorem pyIntCore_natDigits (n : Nat) : pyIntCore (natDigits n) = some n := by
  have hmem := @natDigits_mem n
  cases hnd : natDigits n with
  | nil => exact absurd hnd natDigits_ne_nil
  | cons c cs =>
    rw [hnd] at hmem
    obtain ⟨d, hd, rfl⟩ := hmem c (List.mem_cons_self c cs)
    have hdig := (digitChar_facts d hd).1
    have hval := (digitChar_facts d hd).2.1
    simp only [pyIntCore, if_pos hdig]
    rw [pyDigitsRest_digits (fun x hx => by
      obtain ⟨e, he, rfl⟩ := hmem x (List.mem_cons_of_mem _ hx)
      exact (digitChar_facts e he).1)]
    have hfold := natDigitsAux_foldl (Nat.lt_succ_self n) 0
    have : natDigitsAux (n + 1) n = digitChar d :: cs := hnd
    rw [this] at hfold
    simp only [List.foldl_cons, hval, Nat.zero_mul, Nat.zero_add] at hfold
    rw [hval, hfold]

theorem pyInt_natDigits (n : Nat) : pyInt (natDigits n) = some (n : Int) := by
  have hmem := @natDigits_mem n
  have hstrip : pyStrip (natDigits n) = natDigits n := by
    apply pyStrip_of_no_space
    intro c hc
    obtain ⟨d, hd, rfl⟩ := hmem c hc
    exact (digitChar_facts d hd).2.2.1
  cases hnd : natDigits n with
  | nil => exact absurd hnd natDigits_ne_nil
  | cons c cs =>
    rw [hnd] at hmem
    obtain ⟨d, hd, rfl⟩ := hmem c (List.mem_cons_self c cs)
    have hplus := (digitChar_facts d hd).2.2.2.1
    have hminus := (digitChar_facts d hd).2.2.2.2.1
    have hcore := pyIntCore_natDigits n
    rw [hnd] at hcore
    simp only [pyInt, hnd ▸ hstrip, if_neg hplus, if_neg hminus, hcore]
    rfl

theorem natDigits_no_bar {n : Nat} : '|' ∉ natDigits n := by
  intro h
  obtain ⟨d, hd, hc⟩ := natDigits_mem '|' h
  exact (digitChar_facts d hd).2.2.2.2.2.1 hc.symm

/-! ## Lemmas about the checksum fold -/

set_option maxRecDepth 8192 in
set_option maxHeartbeats 1000000 in
/-- The bitwise rotation in `crcStep`, written arithmetically: for an
8-bit value `t`, `((t << 1) | (t >> 7)) & 0xFF = (2 t) % 256 + t / 128`.
Settled by enumeration of the 256 values. -/
theorem crcRot_arith : ∀ t, t < 256 →
    Nat.lor (2 * t) (t / 128) % 256 = 2 * t % 256 + t / 128 := by decide

set_option maxRecDepth 8192 in
set_option maxHeartbeats 1000000 in
/-- The arithmetic rotation is inverted by
`r ↦ 128 * (r % 2) + r / 2`, hence injective on 8-bit values. -/
theorem crcRot_inverse : ∀ t, t < 256 →
    128 * ((2 * t % 256 + t / 128) % 2) + (2 * t % 256 + t / 128) / 2 = t := by
  decide

theorem crcStep_lt (s : Nat) (c : Char) : crcStep s c < 256 :=
  Nat.mod_lt _ (by omega)

theorem crcStep_inj {s1 s2 : Nat} (h1 : s1 < 256) (h2 : s2 < 256) (c : Char)
    (h : crcStep s1 c = crcStep s2 c) : s1 = s2 := by
  unfold crcStep at h
  simp only at h
  rw [crcRot_arith ((s1 + c.toNat) % 256) (Nat.mod_lt _ (by omega)),
      crcRot_arith ((s2 + c.toNat) % 256) (Nat.mod_lt _ (by omega))] at h
  have hi1 := crcRot_inverse ((s1 + c.toNat) % 256) (Nat.mod_lt _ (by omega))
  have hi2 := crcRot_inverse ((s2 + c.toNat) % 256) (Nat.mod_lt _ (by omega))
  rw [h] at hi1
  have ht : (s1 + c.toNat) % 256 = (s2 + c.toNat) % 256 := hi1.symm.trans hi2
  omega

theorem crcStep_ne_char {s : Nat} (hs : s < 256) {c1 c2 : Char}
    (h : c1.toNat % 256 ≠ c2.toNat % 256) : crcStep s c1 ≠ crcStep s c2 := by
  unfold crcStep
  simp only
  rw [crcRot_arith ((s + c1.toNat) % 256) (Nat.mod_lt _ (by omega)),
      crcRot_arith ((s + c2.toNat) % 256) (Nat.mod_lt _ (by omega))]
  intro hcontra
  have hi1 := crcRot_inverse ((s + c1.toNat) % 256) (Nat.mod_lt _ (by omega))
  have hi2 := crcRot_inverse ((s + c2.toNat) % 256) (Nat.mod_lt _ (by omega))
  rw [hcontra] at hi1
  have ht : (s + c1.toNat) % 256 = (s + c2.toNat) % 256 := hi1.symm.trans hi2
  omega

theorem crcFold_inj {l : List Char} {s1 s2 : Nat} (h1 : s1 < 256)
    (h2 : s2 < 256) (h : crcFold s1 l = crcFold s2 l) : s1 = s2 := by
  induction l generalizing s1 s2 with
  | nil => exact h
  | cons c cs ih =>
    exact crcStep_inj h1 h2 c (ih (crcStep_lt s1 c) (crcStep_lt s2 c) h)

/-- Replacing one character of the payload by a character whose code
point differs modulo 256 changes the checksum. -/
theorem crcFold_replace_ne {pre suf : List Char} {c c' : Char} {s : Nat}
    (hs : s < 256) (h : c.toNat % 256 ≠ c'.toNat % 256) :
    crcFold s (pre ++ c :: suf) ≠ crcFold s (pre ++ c' :: suf) := by
  induction pre generalizing s with
  | nil =>
    intro hcontra
    exact crcStep_ne_char hs h
      (crcFold_inj (crcStep_lt s c) (crcStep_lt s c') hcontra)
  | cons p ps ih =>
    simp only [List.cons_append, crcFold]
    exact ih (crcStep_lt s p)

theorem compute_crc8_set_ne {P : List Char} {i : Nat} {c' : Char}
    (hi : i < P.length)
    (h : (P.get ⟨i, hi⟩).toNat % 256 ≠ c'.toNat % 256) :
    compute_crc8 (P.set i c') ≠ compute_crc8 P := by
  have hset := List.set_eq_take_cons_drop c' hi
  have hsplit : P = P.take i ++ P.get ⟨i, hi⟩ :: P.drop (i + 1) := by
    conv_lhs => rw [← List.take_append_drop i P]
    rw [List.drop_eq_getElem_cons hi]
    rfl
  unfold compute_crc8
  rw [hset]
  conv_rhs => rw [hsplit]
  exact crcFold_replace_ne (by omega) h.symm

/-! ## Splitting a well-formed frame -/

theorem pySplit_frame {s0 P s2 s3 : List Char} (h0 : '|' ∉ s0)
    (hP : '|' ∉ P) (h2 : '|' ∉ s2) (h3 : '|' ∉ s3) :
    pySplit '|' (s0 ++ ('|' :: (P ++ ('|' :: (s2 ++ ('|' :: s3)))))) =
      [s0, P, s2, s3] := by
  rw [pySplit_append_sep h0, pySplit_append_sep hP, pySplit_append_sep h2,
      pySplit_no_sep h3]

/-! ## Shape lemmas for `parse_secure_message` -/

theorem parse_of_split4 {packet p0 p1 p2 p3 : List Char}
    (h : pySplit '|' packet = [p0, p1, p2, p3]) {q r g : Int}
    (h0 : pyInt p0 = some q) (h2 : pyInt p2 = some r) (h3 : pyInt p3 = some g) :
    parse_secure_message packet =
      if (compute_crc8 p1 : Int) ≠ r then (none, none, some ParseFailure.CRC)
      else if (compute_signature p1 q : Int) ≠ g then
        (none, none, some ParseFailure.SIG)
      else (some q, some p1, none) := by
  unfold parse_secure_message
  rw [h]
  simp only [h0, h2, h3]

theorem parse_of_split_ne4 {packet : List Char}
    (h : (pySplit '|' packet).length ≠ 4) :
    parse_secure_message packet = (none, none, some ParseFailure.FORMAT) := by
  unfold parse_secure_message
  rcases hp : pySplit '|' packet with _ | ⟨p0, _ | ⟨p1, _ | ⟨p2, _ | ⟨p3, _ | ⟨p4, rest⟩⟩⟩⟩⟩ <;>
    rw [hp] at h <;> first | rfl | simp at h

theorem parse_of_int_failure {packet p0 p1 p2 p3 : List Char}
    (h : pySplit '|' packet = [p0, p1, p2, p3])
    (hd : pyInt p0 = none ∨ pyInt p2 = none ∨ pyInt p3 = none) :
    parse_secure_message packet = (none, none, some ParseFailure.PARSE) := by
  unfold parse_secure_message
  rw [h]
  rcases hd with h0 | h2 | h3
  · cases hp2 : pyInt p2 <;> cases hp3 : pyInt p3 <;> simp only [h0, hp2, hp3]
  · cases hp0 : pyInt p0 <;> cases hp3 : pyInt p3 <;> simp only [hp0, h2, hp3]
  · cases hp0 : pyInt p0 <;> cases hp2 : pyInt p2 <;> simp only [hp0, hp2, h3]

/-! ## C1: encode/decode round trip -/

/-- C1.  Encode/decode round-trip: for every payload string `P` free of
`'|'` and newline and every sequence `S` in `[0,255]`, decoding the
frame text built by `build_secure_message` (equally, `build_packet`)
succeeds with no error and returns exactly the pair `(S, P)`. -/
theorem round_trip_decode_encode (P : List Char) (S : Nat)
    (hS : S ≤ 255) (hbar : '|' ∉ P) (hnl : '\n' ∉ P) :
    parse_secure_message (build_secure_message P S).1 =
      (some (S : Int), some P, none) ∧
    (build_packet P S).1 = (build_secure_message P S).1 := by
  constructor
  · have hsplit : pySplit '|' ((build_secure_message P S).1) =
        [natDigits S, P, natDigits (compute_crc8 P),
         natDigits (compute_signature P (S : Int))] :=
      pySplit_frame natDigits_no_bar hbar natDigits_no_bar natDigits_no_bar
    rw [parse_of_split4 hsplit (pyInt_natDigits S) (pyInt_natDigits _)
        (pyInt_natDigits _)]
    rw [if_neg (by simp), if_neg (by simp)]
  · rfl

/-- C1 witness: concrete round trip for the payload
`"UNIT:VSAV01,45.750000,4.850000,AVL"` at sequence 7. -/
theorem round_trip_decode_encode_witness :
    (7 ≤ 255 ∧ '|' ∉ "UNIT:VSAV01,45.750000,4.850000,AVL".toList ∧
      '\n' ∉ "UNIT:VSAV01,45.750000,4.850000,AVL".toList) ∧
    parse_secure_message
        (build_secure_message "UNIT:VSAV01,45.750000,4.850000,AVL".toList 7).1 =
      (some (7 : Int), some "UNIT:VSAV01,45.750000,4.850000,AVL".toList, none) ∧
    (build_packet "UNIT:VSAV01,45.750000,4.850000,AVL".toList 7).1 =
      (build_secure_message "UNIT:VSAV01,45.750000,4.850000,AVL".toList 7).1 :=
  ⟨⟨by decide, by decide, by decide⟩,
   round_trip_decode_encode "UNIT:VSAV01,45.750000,4.850000,AVL".toList 7
     (by decide) (by decide) (by decide)⟩

/-! ## C2: integrity sensitivity -/

/-- Replacing the character at offset `i` of the payload field (frame
position `(natDigits S).length + 1 + i`) rewrites only the payload
inside the frame text. -/
theorem frame_set_payload (P : List Char) (S i : Nat) (c' : Char)
    (hi : i < P.length) :
    ((build_secure_message P S).1).set ((natDigits S).length + 1 + i) c' =
      natDigits S ++ ('|' :: (P.set i c' ++ ('|' :: (natDigits (compute_crc8 P)
        ++ ('|' :: natDigits (compute_signature P (S : Int))))))) := by
  show (natDigits S ++ ('|' :: (P ++ _))).set _ c' = _
  rw [List.set_append_right _ _ (by omega)]
  congr 1
  have hsub : (natDigits S).length + 1 + i - (natDigits S).length = i + 1 := by
    omega
  rw [hsub]
  show '|' :: (P ++ _).set i c' = _
  rw [List.set_append_left _ _ hi]

/-- C2 amended.  Replacing a single payload character of a validly
encoded frame by a character `c'` that is not the field separator `'|'`
and whose code point differs from the original modulo 256 (in
particular, by any different character below 256, e.g. ASCII) makes
decoding fail with the Integrity (CRC) error; in particular decoding
never succeeds on such an alteration.  The modulo-256 proviso is
forced: the checksum folds `ord(char)` into an 8-bit accumulator, so
code points congruent modulo 256 collide (see the counterexample). -/
theorem integrity_sensitivity (P : List Char) (S i : Nat) (c' : Char)
    (hS : S ≤ 255) (hbar : '|' ∉ P) (hi : i < P.length) (hc : c' ≠ '|')
    (hne : (P.get ⟨i, hi⟩).toNat % 256 ≠ c'.toNat % 256) :
    parse_secure_message
        (((build_secure_message P S).1).set ((natDigits S).length + 1 + i) c') =
      (none, none, some ParseFailure.CRC) := by
  rw [frame_set_payload P S i c' hi]
  have hbar' : '|' ∉ P.set i c' := fun hm => by
    rcases List.mem_or_eq_of_mem_set hm with h | h
    · exact hbar h
    · exact hc h.symm
  have hsplit : pySplit '|'
      (natDigits S ++ ('|' :: (P.set i c' ++ ('|' :: (natDigits (compute_crc8 P)
        ++ ('|' :: natDigits (compute_signature P (S : Int)))))))) =
      [natDigits S, P.set i c', natDigits (compute_crc8 P),
       natDigits (compute_signature P (S : Int))] :=
    pySplit_frame natDigits_no_bar hbar' natDigits_no_bar natDigits_no_bar
  rw [parse_of_split4 hsplit (pyInt_natDigits S) (pyInt_natDigits _)
      (pyInt_natDigits _)]
  rw [if_pos (by exact_mod_cast compute_crc8_set_ne hi hne)]

/-- C2 witness: replacing the payload `'a'` of the frame `"0|a|194|2782"`
(frame position 2) by `'b'` makes decoding fail with the CRC error. -/
theorem integrity_sensitivity_witness :
    (0 ≤ 255 ∧ '|' ∉ ['a'] ∧ (0 : Nat) < ['a'].length ∧ 'b' ≠ '|' ∧
      (['a'].get ⟨0, by decide⟩).toNat % 256 ≠ 'b'.toNat % 256) ∧
    parse_secure_message
        (((build_secure_message ['a'] 0).1).set ((natDigits 0).length + 1 + 0) 'b') =
      (none, none, some ParseFailure.CRC) :=
  ⟨⟨by decide, by decide, by decide, by decide, by decide⟩,
   integrity_sensitivity ['a'] 0 0 'b' (by decide) (by decide) (by decide)
     (by decide) (by decide)⟩

/-- C2 counterexample.  The claim fails as stated: in the valid frame
`"0|a|194|2782"` (payload `"a"`, sequence 0), replacing the payload
character `'a'` (code 97) by U+2061 (code 8289 = 97 + 32·256, a
different character) leaves both the 8-bit checksum and the 16-bit tag
unchanged — the code-point difference 8192 is a multiple of 256, and its
product with the positional weight 8 is a multiple of 65536 — so decode
silently succeeds and returns an altered payload. -/
theorem integrity_sensitivity_counterexample :
    ((build_secure_message ['a'] 0).1 = "0|a|194|2782".toList) ∧
    (((build_secure_message ['a'] 0).1).set 2 (Char.ofNat 8289) =
      '0' :: '|' :: Char.ofNat 8289 :: "|194|2782".toList) ∧
    parse_secure_message
        (((build_secure_message ['a'] 0).1).set 2 (Char.ofNat 8289)) =
      (some 0, some [Char.ofNat 8289], none) ∧
    [Char.ofNat 8289] ≠ ['a'] := by
  refine ⟨by decide, by decide, by decide, by decide⟩

/-! ## C3: decode failure taxonomy -/

/-- C3 amended.  Failure taxonomy of `parse_secure_message`: FORMAT
exactly when the input does not split on `'|'` into 4 fields; with 4
fields, PARSE exactly when one of the sequence/checksum/tag fields is
not a valid integer literal (the branch the claim omits); with numeric
fields, CRC exactly when the recomputed checksum differs from the
received one; past the checksum, SIG exactly when the recomputed tag
differs; otherwise success, and on every failure no payload is
delivered. -/
theorem decode_failure_taxonomy (packet : List Char) :
    ((parse_secure_message packet).2.2 = some ParseFailure.FORMAT ↔
      (pySplit '|' packet).length ≠ 4) ∧
    (∀ p0 p1 p2 p3 : List Char, pySplit '|' packet = [p0, p1, p2, p3] →
      ((parse_secure_message packet).2.2 = some ParseFailure.PARSE ↔
        pyInt p0 = none ∨ pyInt p2 = none ∨ pyInt p3 = none) ∧
      (∀ q r g : Int, pyInt p0 = some q → pyInt p2 = some r →
        pyInt p3 = some g →
        ((parse_secure_message packet).2.2 = some ParseFailure.CRC ↔
          (compute_crc8 p1 : Int) ≠ r) ∧
        ((compute_crc8 p1 : Int) = r →
          ((parse_secure_message packet).2.2 = some ParseFailure.SIG ↔
            (compute_signature p1 q : Int) ≠ g)) ∧
        ((compute_crc8 p1 : Int) = r → (compute_signature p1 q : Int) = g →
          parse_secure_message packet = (some q, some p1, none)))) ∧
    ((parse_secure_message packet).2.2 = none ∨
      (parse_secure_message packet).1 = none ∧
        (parse_secure_message packet).2.1 = none) := by
  rcases hp : pySplit '|' packet with _ | ⟨p0, _ | ⟨p1, _ | ⟨p2, _ | ⟨p3, _ | ⟨p4, rest⟩⟩⟩⟩⟩
  case nil | cons.nil | cons.cons.nil | cons.cons.cons.nil
    | cons.cons.cons.cons.cons =>
    have hfmt := parse_of_split_ne4
      (show (pySplit '|' packet).length ≠ 4 by rw [hp]; simp)
    refine ⟨by rw [hfmt]; simp, ?_, by rw [hfmt]; exact Or.inr ⟨rfl, rfl⟩⟩
    intro a b c d heq
    simp at heq
  case cons.cons.cons.cons.nil =>
    have hall : ∀ a b c d : List Char,
        ([p0, p1, p2, p3] : List (List Char)) = [a, b, c, d] →
        a = p0 ∧ b = p1 ∧ c = p2 ∧ d = p3 := by
      intro a b c d heq
      simpa using heq.symm
    cases hq0 : pyInt p0 with
    | none =>
      have hparse := parse_of_int_failure hp (Or.inl hq0)
      refine ⟨by rw [hparse]; simp, ?_, by rw [hparse]; exact Or.inr ⟨rfl, rfl⟩⟩
      intro a b c d heq
      obtain ⟨rfl, rfl, rfl, rfl⟩ := hall a b c d heq
      refine ⟨by rw [hparse]; simp [hq0], ?_⟩
      intro q r g hq hr hg
      rw [hq0] at hq
      exact absurd hq (by simp)
    | some q0 =>
      cases hq2 : pyInt p2 with
      | none =>
        have hparse := parse_of_int_failure hp (Or.inr (Or.inl hq2))
        refine ⟨by rw [hparse]; simp, ?_, by rw [hparse]; exact Or.inr ⟨rfl, rfl⟩⟩
        intro a b c d heq
        obtain ⟨rfl, rfl, rfl, rfl⟩ := hall a b c d heq
        refine ⟨by rw [hparse]; simp [hq2], ?_⟩
        intro q r g hq hr hg
        rw [hq2] at hr
        exact absurd hr (by simp)
      | some r0 =>
        cases hq3 : pyInt p3 with
        | none =>
          have hparse := parse_of_int_failure hp (Or.inr (Or.inr hq3))
          refine ⟨by rw [hparse]; simp, ?_,
            by rw [hparse]; exact Or.inr ⟨rfl, rfl⟩⟩
          intro a b c d heq
          obtain ⟨rfl, rfl, rfl, rfl⟩ := hall a b c d heq
          refine ⟨by rw [hparse]; simp [hq3], ?_⟩
          intro q r g hq hr hg
          rw [hq3] at hg
          exact absurd hg (by simp)
        | some g0 =>
          have hparse := parse_of_split4 hp hq0 hq2 hq3
          by_cases hcrc : (compute_crc8 p1 : Int) = r0
          · by_cases hsig : (compute_signature p1 q0 : Int) = g0
            · rw [if_neg (by simpa using hcrc), if_neg (by simpa using hsig)]
                at hparse
              refine ⟨by rw [hparse]; simp, ?_, by rw [hparse]; exact Or.inl rfl⟩
              intro a b c d heq
              obtain ⟨rfl, rfl, rfl, rfl⟩ := hall a b c d heq
              refine ⟨by rw [hparse]; simp [hq0, hq2, hq3], ?_⟩
              intro q r g hq hr hg
              rw [hq0] at hq
              rw [hq2] at hr
              rw [hq3] at hg
              obtain ⟨rfl⟩ : q = q0 := by simpa using hq.symm
              obtain ⟨rfl⟩ : r = r0 := by simpa using hr.symm
              obtain ⟨rfl⟩ : g = g0 := by simpa using hg.symm
              exact ⟨by rw [hparse]; simp [hcrc], fun _ => by rw [hparse]; simp [hsig],
                fun _ _ => hparse⟩
            · rw [if_neg (by simpa using hcrc), if_pos (by simpa using hsig)]
                at hparse
              refine ⟨by rw [hparse]; simp, ?_, by rw [hparse]; exact Or.inr ⟨rfl, rfl⟩⟩
              intro a b c d heq
              obtain ⟨rfl, rfl, rfl, rfl⟩ := hall a b c d heq
              refine ⟨by rw [hparse]; simp [hq0, hq2, hq3], ?_⟩
              intro q r g hq hr hg
              rw [hq0] at hq
              rw [hq2] at hr
              rw [hq3] at hg
              obtain ⟨rfl⟩ : q = q0 := by simpa using hq.symm
              obtain ⟨rfl⟩ : r = r0 := by simpa using hr.symm
              obtain ⟨rfl⟩ : g = g0 := by simpa using hg.symm
              exact ⟨by rw [hparse]; simp [hcrc],
                fun _ => by rw [hparse]; simp [hsig],
                fun _ hcon => absurd hcon hsig⟩
          · rw [if_pos (by simpa using hcrc)] at hparse
            refine ⟨by rw [hparse]; simp, ?_, by rw [hparse]; exact Or.inr ⟨rfl, rfl⟩⟩
            intro a b c d heq
            obtain ⟨rfl, rfl, rfl, rfl⟩ := hall a b c d heq
            refine ⟨by rw [hparse]; simp [hq0, hq2, hq3], ?_⟩
            intro q r g hq hr hg
            rw [hq0] at hq
            rw [hq2] at hr
            rw [hq3] at hg
            obtain ⟨rfl⟩ : q = q0 := by simpa using hq.symm
            obtain ⟨rfl⟩ : r = r0 := by simpa using hr.symm
            obtain ⟨rfl⟩ : g = g0 := by simpa using hg.symm
            exact ⟨by rw [hparse]; simp [hcrc],
              fun hcon => absurd hcon hcrc,
              fun hcon _ => absurd hcon hcrc⟩

/-- C3 witness: the taxonomy applied to the concrete frame
`"5|ab|12|34"`, whose fields are numeric but whose checksum mismatches. -/
theorem decode_failure_taxonomy_witness :
    (pySplit '|' "5|ab|12|34".toList = ["5".toList, "ab".toList, "12".toList, "34".toList] ∧
      pyInt "5".toList = some 5 ∧ pyInt "12".toList = some 12 ∧
      pyInt "34".toList = some 34) ∧
    ((parse_secure_message "5|ab|12|34".toList).2.2 = some ParseFailure.CRC ↔
      (compute_crc8 "ab".toList : Int) ≠ 12) :=
  ⟨⟨by decide, by decide, by decide, by decide⟩,
   (((decode_failure_taxonomy "5|ab|12|34".toList).2.1 "5".toList "ab".toList
      "12".toList "34".toList (by decide)).2 5 12 34 (by decide) (by decide)
      (by decide)).1⟩

/-- C3 counterexample.  The claim's taxonomy (FORMAT / CRC / SIG only,
with CRC decided right after field count) is falsified by the input
`"a|b|c|d"`: it splits into exactly 4 fields, yet decoding fails with
the fourth error kind PARSE, because `int("a")` raises before any
checksum comparison. -/
theorem decode_failure_taxonomy_counterexample :
    (pySplit '|' "a|b|c|d".toList).length = 4 ∧
    parse_secure_message "a|b|c|d".toList = (none, none, some ParseFailure.PARSE) ∧
    ParseFailure.PARSE ≠ ParseFailure.FORMAT ∧
    ParseFailure.PARSE ≠ ParseFailure.CRC ∧
    ParseFailure.PARSE ≠ ParseFailure.SIG := by
  refine ⟨by decide, by decide, by decide, by decide, by decide⟩

/-! ## C4: single-slot duplicate tracking -/

/-- C4.  `is_duplicate` reports a duplicate exactly when the stored
entry for the sender equals the observed sequence; otherwise it reports
fresh and overwrites the stored value (other senders untouched).
Concretely: observing 7 then 7 yields Fresh then Duplicate, and 7, 9, 7
yields Fresh, Fresh, Fresh. -/
theorem single_slot_duplicate_tracking :
    (∀ (m : SeqMap) (cs : List Char) (seq : Int),
      ((is_duplicate cs seq m).1 = true ↔ m cs = some seq) ∧
      (∀ x, (is_duplicate cs seq m).2 x =
        if m cs = some seq then m x
        else if x = cs then some seq else m x)) ∧
    (runObserve emptySeqMap
      [("VSAV01".toList, 7), ("VSAV01".toList, 7)]).1 = [false, true] ∧
    (runObserve emptySeqMap
      [("VSAV01".toList, 7), ("VSAV01".toList, 9),
       ("VSAV01".toList, 7)]).1 = [false, false, false] := by
  refine ⟨?_, by decide, by decide⟩
  intro m cs seq
  constructor
  · by_cases h : m cs = some seq <;> simp [is_duplicate, h]
  · intro x
    by_cases h : m cs = some seq <;> simp [is_duplicate, h]

/-! ## Retry-engine lemmas -/

/-- The initial values of unit.py's module globals. -/
def initUnitState : UnitState :=
  { waiting_for_ack := false, last_message := [], retry_count := 0,
    last_retry_time := 0, sequence_number := 0 }

theorem check_ack_not_waiting {s : UnitState}
    (h : s.waiting_for_ack = false) (p : Option (List Char)) (t : Nat) :
    check_ack s p t = (s, none) := by
  simp [check_ack, h]

theorem runTicks_not_waiting {s : UnitState}
    (h : s.waiting_for_ack = false) (ts : List (Option (List Char) × Nat)) :
    runTicks s ts = (s, []) := by
  induction ts with
  | nil => rfl
  | cons pt ts ih => simp [runTicks, check_ack_not_waiting h, ih]

theorem check_ack_on_ack {s : UnitState} (hw : s.waiting_for_ack = true)
    {p : List Char} (hp : startsWithAck p = true) (t : Nat) :
    check_ack s (some p) t = ({ s with waiting_for_ack := false }, none) := by
  simp [check_ack, hw, hp]

theorem check_ack_timeout_retransmit {s : UnitState}
    (hw : s.waiting_for_ack = true) {p : Option (List Char)}
    (hp : ∀ x, p = some x → startsWithAck x = false) {t : Nat}
    (ht : t - s.last_retry_time > ACK_TIMEOUT)
    (hr : s.retry_count < MAX_RETRIES) :
    check_ack s p t =
      ({ s with retry_count := s.retry_count + 1, last_retry_time := t },
       some s.last_message) := by
  cases p with
  | none => simp [check_ack, hw, ackTimeoutStep, ht, hr]
  | some x => simp [check_ack, hw, hp x rfl, ackTimeoutStep, ht, hr]

theorem check_ack_timeout_give_up {s : UnitState}
    (hw : s.waiting_for_ack = true) {p : Option (List Char)}
    (hp : ∀ x, p = some x → startsWithAck x = false) {t : Nat}
    (ht : t - s.last_retry_time > ACK_TIMEOUT)
    (hr : ¬ s.retry_count < MAX_RETRIES) :
    check_ack s p t = ({ s with waiting_for_ack := false }, none) := by
  cases p with
  | none => simp [check_ack, hw, ackTimeoutStep, ht, hr]
  | some x => simp [check_ack, hw, hp x rfl, ackTimeoutStep, ht, hr]

/-- Every outcome of one `check_ack` tick: acknowledge/no-op/give-up
(no transmission), or retransmit the stored frame with the retry
counter bumped. -/
theorem check_ack_cases (s : UnitState) (p : Option (List Char)) (t : Nat) :
    ((check_ack s p t).2 = none ∧
      (check_ack s p t).1.retry_count = s.retry_count ∧
      (check_ack s p t).1.last_message = s.last_message) ∨
    (s.retry_count < MAX_RETRIES ∧
      check_ack s p t =
        ({ s with retry_count := s.retry_count + 1, last_retry_time := t },
         some s.last_message)) := by
  by_cases hw : s.waiting_for_ack = false
  · rw [check_ack_not_waiting hw]
    exact Or.inl ⟨rfl, rfl, rfl⟩
  · have hw' : s.waiting_for_ack = true := by
      cases h : s.waiting_for_ack
      · exact absurd h hw
      · rfl
    have hto : ∀ u : Unit,
        ((ackTimeoutStep s t).2 = none ∧
          (ackTimeoutStep s t).1.retry_count = s.retry_count ∧
          (ackTimeoutStep s t).1.last_message = s.last_message) ∨
        (s.retry_count < MAX_RETRIES ∧
          ackTimeoutStep s t =
            ({ s with retry_count := s.retry_count + 1, last_retry_time := t },
             some s.last_message)) := by
      intro _
      unfold ackTimeoutStep
      by_cases ht : t - s.last_retry_time > ACK_TIMEOUT
      · by_cases hr : s.retry_count < MAX_RETRIES
        · rw [if_pos ht, if_pos hr]
          exact Or.inr ⟨hr, rfl⟩
        · rw [if_pos ht, if_neg hr]
          exact Or.inl ⟨rfl, rfl, rfl⟩
      · rw [if_neg ht]
        exact Or.inl ⟨rfl, rfl, rfl⟩
    cases p with
    | none =>
      have : check_ack s none t = ackTimeoutStep s t := by simp [check_ack, hw']
      rw [this]
      exact hto ()
    | some x =>
      by_cases hack : startsWithAck x
      · rw [check_ack_on_ack hw' hack]
        exact Or.inl ⟨rfl, rfl, rfl⟩
      · have : check_ack s (some x) t = ackTimeoutStep s t := by
          simp [check_ack, hw', hack]
        rw [this]
        exact hto ()

/-- Over any tick sequence, the retransmissions are copies of the
stored frame and their number never exceeds the retries still
available. -/
theorem runTicks_bound (ts : List (Option (List Char) × Nat)) :
    ∀ s : UnitState, s.retry_count ≤ MAX_RETRIES →
      (runTicks s ts).2.length ≤ MAX_RETRIES - s.retry_count ∧
      ∀ x ∈ (runTicks s ts).2, x = s.last_message := by
  induction ts with
  | nil => intro s hs; simp [runTicks]
  | cons pt ts ih =>
    intro s hs
    rcases check_ack_cases s pt.1 pt.2 with
      ⟨htx, hrc, hlm⟩ | ⟨hr, heq⟩
    · have hrec := ih (check_ack s pt.1 pt.2).1 (by rw [hrc]; exact hs)
      constructor
      · simp only [runTicks, htx, Option.toList_none, List.nil_append,
          List.length_nil]
        exact le_trans hrec.1 (by rw [hrc])
      · intro x hx
        simp only [runTicks, htx, Option.toList_none, List.nil_append] at hx
        rw [← hlm]
        exact hrec.2 x hx
    · have hrec :=
        ih ({ s with retry_count := s.retry_count + 1, last_retry_time := pt.2 })
          (by simp only [UnitState.mk.injEq]; omega)
      constructor
      · simp only [runTicks, heq, Option.toList_some, List.length_append,
          List.length_cons, List.length_nil]
        have := hrec.1
        simp only at this
        omega
      · intro x hx
        simp only [runTicks, heq, Option.toList_some, List.singleton_append,
          List.mem_cons] at hx
        rcases hx with rfl | hx
        · rfl
        · exact hrec.2 x hx

/-! ## C5: retry bound -/

/-- C5.  After one `send_secure` with no acknowledgment ever received:
on the canonical schedule of ticks spaced past the ACK timeout the
engine retransmits the identical frame exactly `MAX_RETRIES` times —
`1 + MAX_RETRIES` transmissions in all, counting the initial send —
then clears `waiting_for_ack` and transmits nothing on any further
tick; moreover no tick sequence without an acknowledgment ever yields
more than `1 + MAX_RETRIES` transmissions, all of the same frame
text. -/
theorem retry_bound (data : List Char) (st : UnitState) (now0 : Nat)
    (rest : List (Option (List Char) × Nat)) :
    (runTicks (send_secure data st now0).1
        ([(none, now0 + 501), (none, now0 + 1002), (none, now0 + 1503),
          (none, now0 + 2004)] ++ rest)).2 =
      [(send_secure data st now0).2, (send_secure data st now0).2,
       (send_secure data st now0).2] ∧
    (runTicks (send_secure data st now0).1
        ([(none, now0 + 501), (none, now0 + 1002), (none, now0 + 1503),
          (none, now0 + 2004)] ++ rest)).1.waiting_for_ack = false ∧
    1 + (runTicks (send_secure data st now0).1
        ([(none, now0 + 501), (none, now0 + 1002), (none, now0 + 1503),
          (none, now0 + 2004)] ++ rest)).2.length = 1 + MAX_RETRIES ∧
    (∀ ts : List (Option (List Char) × Nat),
      1 + (runTicks (send_secure data st now0).1 ts).2.length ≤
        1 + MAX_RETRIES ∧
      ∀ x ∈ (runTicks (send_secure data st now0).1 ts).2,
        x = (send_secure data st now0).2) := by
  have hsend : send_secure data st now0 =
      ({ waiting_for_ack := true,
         last_message := (build_secure_message data st.sequence_number).1,
         retry_count := 0, last_retry_time := now0,
         sequence_number := (st.sequence_number + 1) % 256 },
       (build_secure_message data st.sequence_number).1) := rfl
  set M := (build_secure_message data st.sequence_number).1 with hM
  set q := (st.sequence_number + 1) % 256 with hq
  have e1 : check_ack
      { waiting_for_ack := true, last_message := M, retry_count := 0,
        last_retry_time := now0, sequence_number := q } none (now0 + 501) =
      ({ waiting_for_ack := true, last_message := M, retry_count := 1,
         last_retry_time := now0 + 501, sequence_number := q }, some M) := by
    rw [check_ack_timeout_retransmit rfl (by intro x hx; cases hx)
      (by simp only [ACK_TIMEOUT]; omega) (by simp [MAX_RETRIES])]
  have e2 : check_ack
      { waiting_for_ack := true, last_message := M, retry_count := 1,
        last_retry_time := now0 + 501, sequence_number := q } none
      (now0 + 1002) =
      ({ waiting_for_ack := true, last_message := M, retry_count := 2,
         last_retry_time := now0 + 1002, sequence_number := q }, some M) := by
    rw [check_ack_timeout_retransmit rfl (by intro x hx; cases hx)
      (by simp only [ACK_TIMEOUT]; omega) (by simp [MAX_RETRIES])]
  have e3 : check_ack
      { waiting_for_ack := true, last_message := M, retry_count := 2,
        last_retry_time := now0 + 1002, sequence_number := q } none
      (now0 + 1503) =
      ({ waiting_for_ack := true, last_message := M, retry_count := 3,
         last_retry_time := now0 + 1503, sequence_number := q }, some M) := by
    rw [check_ack_timeout_retransmit rfl (by intro x hx; cases hx)
      (by simp only [ACK_TIMEOUT]; omega) (by simp [MAX_RETRIES])]
  have e4 : check_ack
      { waiting_for_ack := true, last_message := M, retry_count := 3,
        last_retry_time := now0 + 1503, sequence_number := q } none
      (now0 + 2004) =
      ({ waiting_for_ack := false, last_message := M, retry_count := 3,
         last_retry_time := now0 + 1503, sequence_number := q }, none) := by
    rw [check_ack_timeout_give_up rfl (by intro x hx; cases hx)
      (by simp only [ACK_TIMEOUT]; omega) (by simp [MAX_RETRIES])]
  have hrun : runTicks (send_secure data st now0).1
      ([(none, now0 + 501), (none, now0 + 1002), (none, now0 + 1503),
        (none, now0 + 2004)] ++ rest) =
      ({ waiting_for_ack := false, last_message := M, retry_count := 3,
         last_retry_time := now0 + 1503, sequence_number := q },
       [M, M, M]) := by
    rw [hsend]
    simp only [List.cons_append, List.nil_append, runTicks, e1, e2, e3, e4,
      Option.toList_some, Option.toList_none]
    simp only [List.append_eq, List.nil_append,
      runTicks_not_waiting
        (s := { waiting_for_ack := false, last_message := M, retry_count := 3,
                last_retry_time := now0 + 1503, sequence_number := q })
        rfl]
  refine ⟨by rw [hrun, hsend], by rw [hrun], by rw [hrun]; rfl, ?_⟩
  intro ts
  have hb := runTicks_bound ts
    { waiting_for_ack := true, last_message := M, retry_count := 0,
      last_retry_time := now0, sequence_number := q }
    (by simp [MAX_RETRIES])
  rw [hsend]
  constructor
  · have h1 : (runTicks
        { waiting_for_ack := true, last_message := M, retry_count := 0,
          last_retry_time := now0, sequence_number := q } ts).2.length ≤
        MAX_RETRIES - 0 := hb.1
    show 1 + (runTicks
        { waiting_for_ack := true, last_message := M, retry_count := 0,
          last_retry_time := now0, sequence_number := q } ts).2.length ≤
      1 + MAX_RETRIES
    omega
  · exact fun x hx => hb.2 x hx

/-- C5 witness: the retry bound at a concrete payload, start state,
time 0 and empty continuation. -/
theorem retry_bound_witness :
    (runTicks (send_secure ['x'] initUnitState 0).1
        [(none, 501), (none, 1002), (none, 1503), (none, 2004)]).2 =
      [(send_secure ['x'] initUnitState 0).2,
       (send_secure ['x'] initUnitState 0).2,
       (send_secure ['x'] initUnitState 0).2] ∧
    (runTicks (send_secure ['x'] initUnitState 0).1
        [(none, 501), (none, 1002), (none, 1503), (none, 2004)]).1.waiting_for_ack
      = false := by
  have h := retry_bound ['x'] initUnitState 0 []
  refine ⟨?_, ?_⟩
  · have := h.1
    simpa using this
  · have := h.2.1
    simpa using this

/-! ## C6: acknowledgment matching -/

/-- C6 amended.  While the engine awaits an acknowledgment, *any*
received packet that starts with `"ACK:"` — whatever sequence number
follows, matching or not — moves it to the idle state with no
retransmission: `check_ack` never compares the acknowledged sequence
with the in-flight one.  (The claim's selective matching is not what
the code does; see the counterexample.) -/
theorem ack_matching (s : UnitState) (p : List Char) (now : Nat)
    (hw : s.waiting_for_ack = true) (hp : startsWithAck p = true) :
    check_ack s (some p) now = ({ s with waiting_for_ack := false }, none) :=
  check_ack_on_ack hw hp now

/-- C6 witness: a concrete awaiting state cleared by `"ACK:99"`. -/
theorem ack_matching_witness :
    ((send_secure ['x'] initUnitState 0).1.waiting_for_ack = true ∧
      startsWithAck "ACK:99".toList = true) ∧
    check_ack (send_secure ['x'] initUnitState 0).1 (some "ACK:99".toList) 7 =
      ({ (send_secure ['x'] initUnitState 0).1 with waiting_for_ack := false },
       none) :=
  ⟨⟨by decide, by decide⟩,
   ack_matching (send_secure ['x'] initUnitState 0).1 "ACK:99".toList 7
     (by decide) (by decide)⟩

/-- C6 counterexample.  The claim fails as stated: after sending with
in-flight sequence 0 (whose matching acknowledgment text is `"ACK:0"`),
observing the non-matching acknowledgment `"ACK:99"` does *not* leave
the engine awaiting — it clears `waiting_for_ack`, transitioning to
idle. -/
theorem ack_matching_counterexample :
    (build_secure_message ['x'] 0).2.1 = 0 ∧
    "ACK:99".toList ≠ 'A' :: 'C' :: 'K' :: ':' :: natDigits 0 ∧
    (send_secure ['x'] initUnitState 0).1.waiting_for_ack = true ∧
    (check_ack (send_secure ['x'] initUnitState 0).1
        (some "ACK:99".toList) 7).1.waiting_for_ack = false := by
  refine ⟨by decide, by decide, by decide, by decide⟩

/-! ## C7: LastKnownState write atomicity -/

/-- C7 amended.  In `bridge_receiver.handle_sta_message` the claim
holds: when the backend PATCH fails the `last_statuses` cache entry is
left unchanged, so handling the identical report again issues the write
again, and the cache is written only on success.  In
`bridge.process_unit_data`, however, `last_statuses[call_sign]` is
assigned whether or not the PATCH succeeded, so a failed write is not
retried by the next identical report (see the counterexample). -/
theorem last_known_state_write_atomicity :
    (∀ (line mb st uid : List Char)
        (micToUnit : List Char → Option (List Char))
        (last : BridgeReceiver.StatusMap),
      BridgeReceiver.parse_sta_message line = some (mb, st) →
      micToUnit mb = some uid → uid ≠ [] → last mb ≠ some st →
      BridgeReceiver.handle_sta_message line micToUnit last false =
        (true, last, true) ∧
      (BridgeReceiver.handle_sta_message line micToUnit
        (BridgeReceiver.handle_sta_message line micToUnit last false).2.1
        false).2.2 = true ∧
      (∀ x, (BridgeReceiver.handle_sta_message line micToUnit last true).2.1 x =
        if x = mb then some st else last x)) ∧
    (∀ (writeOk : Bool) (uid cs st : List Char)
        (last : BridgeReceiver.StatusMap),
      last cs ≠ some st →
      ∀ x, (Bridge.process_unit_data (some uid) writeOk cs st last).1 x =
        if x = cs then some st else last x) := by
  constructor
  · intro line mb st uid micToUnit last hparse hmap huid hdiff
    have hfail : BridgeReceiver.handle_sta_message line micToUnit last false =
        (true, last, true) := by
      simp [BridgeReceiver.handle_sta_message, hparse, hmap, huid, hdiff,
        BridgeReceiver.update_unit_status]
    refine ⟨hfail, ?_, ?_⟩
    · rw [hfail]
      simp [BridgeReceiver.handle_sta_message, hparse, hmap, huid, hdiff,
        BridgeReceiver.update_unit_status]
    · intro x
      simp [BridgeReceiver.handle_sta_message, hparse, hmap, huid, hdiff,
        BridgeReceiver.update_unit_status]
  · intro writeOk uid cs st last hdiff x
    simp [Bridge.process_unit_data, hdiff]

/-- C7 witness: the atomicity statement at the concrete report
`"STA:MB001,ERT"` with the mapping `MB001 ↦ u-1` and an empty cache. -/
theorem last_known_state_write_atomicity_witness :
    (BridgeReceiver.parse_sta_message "STA:MB001,ERT".toList =
        some ("MB001".toList, "ERT".toList) ∧
      (fun x => if x = "MB001".toList then some "u-1".toList else none)
          "MB001".toList = some "u-1".toList ∧
      "u-1".toList ≠ ([] : List Char) ∧
      BridgeReceiver.emptyStatusMap "MB001".toList ≠ some "ERT".toList) ∧
    BridgeReceiver.handle_sta_message "STA:MB001,ERT".toList
        (fun x => if x = "MB001".toList then some "u-1".toList else none)
        BridgeReceiver.emptyStatusMap false =
      (true, BridgeReceiver.emptyStatusMap, true) :=
  ⟨⟨by decide, by decide, by decide, by decide⟩,
   ((last_known_state_write_atomicity.1 "STA:MB001,ERT".toList "MB001".toList
      "ERT".toList "u-1".toList
      (fun x => if x = "MB001".toList then some "u-1".toList else none)
      BridgeReceiver.emptyStatusMap (by decide) (by decide) (by decide)
      (by decide)).1)⟩

/-- C7 counterexample.  The claim fails on `bridge.process_unit_data`:
with the backend PATCH failing, handling a first report
`("VSAV01", "ERT")` from an empty cache still writes the cache entry,
and the immediately following identical report is short-circuited — no
second backend write is issued, contradicting "the cache entry is left
unchanged so the next identical report retries the write". -/
theorem last_known_state_write_atomicity_counterexample :
    (Bridge.process_unit_data (some "u-123".toList) false "VSAV01".toList
        "ERT".toList BridgeReceiver.emptyStatusMap).2.1 = true ∧
    (Bridge.process_unit_data (some "u-123".toList) false "VSAV01".toList
        "ERT".toList BridgeReceiver.emptyStatusMap).1 "VSAV01".toList =
      some "ERT".toList ∧
    (Bridge.process_unit_data (some "u-123".toList) false "VSAV01".toList
        "ERT".toList
        (Bridge.process_unit_data (some "u-123".toList) false "VSAV01".toList
          "ERT".toList BridgeReceiver.emptyStatusMap).1).2.1 = false := by
  refine ⟨by decide, by decide, by decide⟩

/-! ## C8: idempotent status writes -/

/-- C8.  Two consecutive identical status reports for a mapped device,
the first backend write succeeding, issue exactly one backend status
PATCH: the first handling issues the write and caches the status, the
second finds the cached status equal and issues no backend call —
in `bridge_receiver.handle_sta_message` and equally in
`bridge.process_unit_data`. -/
theorem idempotent_status_writes :
    (∀ (line mb st uid : List Char)
        (micToUnit : List Char → Option (List Char))
        (last : BridgeReceiver.StatusMap),
      BridgeReceiver.parse_sta_message line = some (mb, st) →
      micToUnit mb = some uid → uid ≠ [] → last mb ≠ some st →
      (BridgeReceiver.handle_sta_message line micToUnit last true).2.2 = true ∧
      (BridgeReceiver.handle_sta_message line micToUnit last true).2.1 mb =
        some st ∧
      (∀ wk2 : Bool, (BridgeReceiver.handle_sta_message line micToUnit
          (BridgeReceiver.handle_sta_message line micToUnit last true).2.1
          wk2).2.2 = false)) ∧
    (∀ (uid cs st : List Char) (last : BridgeReceiver.StatusMap),
      last cs ≠ some st →
      (Bridge.process_unit_data (some uid) true cs st last).2.1 = true ∧
      (∀ wk2 : Bool, (Bridge.process_unit_data (some uid) wk2 cs st
          (Bridge.process_unit_data (some uid) true cs st last).1).2.1 =
        false)) := by
  constructor
  · intro line mb st uid micToUnit last hparse hmap huid hdiff
    have hsucc : BridgeReceiver.handle_sta_message line micToUnit last true =
        (true, fun x => if x = mb then some st else last x, true) := by
      simp [BridgeReceiver.handle_sta_message, hparse, hmap, huid, hdiff,
        BridgeReceiver.update_unit_status]
    refine ⟨by rw [hsucc], by rw [hsucc]; simp, ?_⟩
    intro wk2
    rw [hsucc]
    simp [BridgeReceiver.handle_sta_message, hparse, hmap, huid,
      BridgeReceiver.update_unit_status]
  · intro uid cs st last hdiff
    have hsucc : Bridge.process_unit_data (some uid) true cs st last =
        (fun x => if x = cs then some st else last x, true, true) := by
      simp [Bridge.process_unit_data, hdiff]
    refine ⟨by rw [hsucc], ?_⟩
    intro wk2
    rw [hsucc]
    simp [Bridge.process_unit_data]

/-- C8 witness: exactly one PATCH for two consecutive
`"STA:MB001,AVL"` reports from an empty cache. -/
theorem idempotent_status_writes_witness :
    (BridgeReceiver.parse_sta_message "STA:MB001,AVL".toList =
        some ("MB001".toList, "AVL".toList) ∧
      (fun x => if x = "MB001".toList then some "u-1".toList else none)
          "MB001".toList = some "u-1".toList ∧
      "u-1".toList ≠ ([] : List Char) ∧
      BridgeReceiver.emptyStatusMap "MB001".toList ≠ some "AVL".toList) ∧
    (BridgeReceiver.handle_sta_message "STA:MB001,AVL".toList
        (fun x => if x = "MB001".toList then some "u-1".toList else none)
        BridgeReceiver.emptyStatusMap true).2.2 = true ∧
    (∀ wk2 : Bool, (BridgeReceiver.handle_sta_message "STA:MB001,AVL".toList
        (fun x => if x = "MB001".toList then some "u-1".toList else none)
        (BridgeReceiver.handle_sta_message "STA:MB001,AVL".toList
          (fun x => if x = "MB001".toList then some "u-1".toList else none)
          BridgeReceiver.emptyStatusMap true).2.1 wk2).2.2 = false) :=
  ⟨⟨by decide, by decide, by decide, by decide⟩,
   (idempotent_status_writes.1 "STA:MB001,AVL".toList "MB001".toList
      "AVL".toList "u-1".toList
      (fun x => if x = "MB001".toList then some "u-1".toList else none)
      BridgeReceiver.emptyStatusMap (by decide) (by decide) (by decide)
      (by decide)).1,
   (idempotent_status_writes.1 "STA:MB001,AVL".toList "MB001".toList
      "AVL".toList "u-1".toList
      (fun x => if x = "MB001".toList then some "u-1".toList else none)
      BridgeReceiver.emptyStatusMap (by decide) (by decide) (by decide)
      (by decide)).2.2⟩

/-! ## C9: status-code translation -/

/-- C9 amended.  Status translation uses the fixed tables (e.g.
`AVL ↦ available`, `OFF ↦ offline`), but a code absent from the table
is *not* passed through unchanged: `bridge_receiver.normalize_status`
lower-cases it (and maps the empty status to `"available"`), and
`bridge.update_unit_status` sends `"available"` for every unknown
code. -/
theorem status_translation (st : List Char) :
    (BridgeReceiver.normalize_status "AVL".toList = "available".toList ∧
     BridgeReceiver.normalize_status "OFF".toList = "offline".toList ∧
     Bridge.api_status "AVL".toList = "available".toList ∧
     Bridge.api_status "OFF".toList = "offline".toList) ∧
    (st ≠ [] →
      BridgeReceiver.mapLookup (pyUpper (pyStrip st))
          BridgeReceiver.STATUS_MAP = none →
      BridgeReceiver.normalize_status st = pyLower st) ∧
    (BridgeReceiver.mapLookup st Bridge.STATUS_MAP = none →
      Bridge.api_status st = "available".toList) := by
  refine ⟨⟨by decide, by decide, by decide, by decide⟩, ?_, ?_⟩
  · intro hne hlook
    simp [BridgeReceiver.normalize_status, hne, hlook]
  · intro hlook
    simp [Bridge.api_status, hlook]

/-- C9 witness: the translation behaviour at the unknown code
`"XYZ"`. -/
theorem status_translation_witness :
    ("XYZ".toList ≠ ([] : List Char) ∧
      BridgeReceiver.mapLookup (pyUpper (pyStrip "XYZ".toList))
          BridgeReceiver.STATUS_MAP = none ∧
      BridgeReceiver.mapLookup "XYZ".toList Bridge.STATUS_MAP = none) ∧
    BridgeReceiver.normalize_status "XYZ".toList = pyLower "XYZ".toList ∧
    Bridge.api_status "XYZ".toList = "available".toList :=
  ⟨⟨by decide, by decide, by decide⟩,
   (status_translation "XYZ".toList).2.1 (by decide) (by decide),
   (status_translation "XYZ".toList).2.2 (by decide)⟩

/-- C9 counterexample.  The unknown on-wire code `"XYZ"` is not passed
through unchanged: the receiver normalises it to `"xyz"` and bridge.py
maps it to `"available"`. -/
theorem status_translation_counterexample :
    BridgeReceiver.normalize_status "XYZ".toList = "xyz".toList ∧
    "xyz".toList ≠ "XYZ".toList ∧
    Bridge.api_status "XYZ".toList = "available".toList ∧
    "available".toList ≠ "XYZ".toList := by
  refine ⟨by decide, by decide, by decide, by decide⟩

/-! ## Base64 and XOR lemmas -/

set_option maxRecDepth 4096 in
/-- Facts about the base64 alphabet, settled by enumeration of the 64
six-bit values. -/
theorem b64Char_facts : ∀ v, v < 64 →
    b64Val (b64Char v) = some v ∧ b64Char v < 128 ∧ b64Char v ≠ b64Pad := by
  decide

/-- `b64encode` emits only alphabet characters and padding, all below
128. -/
theorem b64encode_clean : ∀ (bs : List Nat), (∀ b ∈ bs, b < 256) →
    ∀ c ∈ b64encode bs, (((b64Val c).isSome || c = b64Pad) = true ∧ c < 128)
  | [], _ => by simp [b64encode]
  | [b0], h => by
    have h0 : b0 < 256 := h b0 (List.mem_cons_self b0 [])
    have f0 := b64Char_facts (b0 / 4) (by omega)
    have f1 := b64Char_facts (b0 % 4 * 16) (by omega)
    intro c hc
    simp only [b64encode, List.mem_cons, List.not_mem_nil, or_false] at hc
    rcases hc with rfl | rfl | rfl | rfl
    · exact ⟨by simp [f0.1], f0.2.1⟩
    · exact ⟨by simp [f1.1], f1.2.1⟩
    · exact ⟨by simp, by decide⟩
    · exact ⟨by simp, by decide⟩
  | [b0, b1], h => by
    have h0 : b0 < 256 := h b0 (List.mem_cons_self b0 [b1])
    have h1 : b1 < 256 := h b1 (List.mem_cons_of_mem b0 (List.mem_cons_self b1 []))
    have f0 := b64Char_facts (b0 / 4) (by omega)
    have f1 := b64Char_facts (b0 % 4 * 16 + b1 / 16) (by omega)
    have f2 := b64Char_facts (b1 % 16 * 4) (by omega)
    intro c hc
    simp only [b64encode, List.mem_cons, List.not_mem_nil, or_false] at hc
    rcases hc with rfl | rfl | rfl | rfl
    · exact ⟨by simp [f0.1], f0.2.1⟩
    · exact ⟨by simp [f1.1], f1.2.1⟩
    · exact ⟨by simp [f2.1], f2.2.1⟩
    · exact ⟨by simp, by decide⟩
  | b0 :: b1 :: b2 :: rest, h => by
    have h0 : b0 < 256 := h b0 (by simp)
    have h1 : b1 < 256 := h b1 (by simp)
    have h2 : b2 < 256 := h b2 (by simp)
    have f0 := b64Char_facts (b0 / 4) (by omega)
    have f1 := b64Char_facts (b0 % 4 * 16 + b1 / 16) (by omega)
    have f2 := b64Char_facts (b1 % 16 * 4 + b2 / 64) (by omega)
    have f3 := b64Char_facts (b2 % 64) (by omega)
    have hrec := b64encode_clean rest (fun b hb => h b (by simp [hb]))
    intro c hc
    simp only [b64encode, List.mem_cons] at hc
    rcases hc with rfl | rfl | rfl | rfl | hc
    · exact ⟨by simp [f0.1], f0.2.1⟩
    · exact ⟨by simp [f1.1], f1.2.1⟩
    · exact ⟨by simp [f2.1], f2.2.1⟩
    · exact ⟨by simp [f3.1], f3.2.1⟩
    · exact hrec c hc

/-- Decoding the four-character groups emitted by `b64encode` recovers
the original bytes. -/
theorem b64decodeGroups_encode : ∀ (bs : List Nat), (∀ b ∈ bs, b < 256) →
    b64decodeGroups (b64encode bs) = some bs
  | [], _ => rfl
  | [b0], h => by
    have h0 : b0 < 256 := h b0 (List.mem_cons_self b0 [])
    have f0 := b64Char_facts (b0 / 4) (by omega)
    have f1 := b64Char_facts (b0 % 4 * 16) (by omega)
    simp [b64encode, b64decodeGroups, f0.1, f1.1]
    omega
  | [b0, b1], h => by
    have h0 : b0 < 256 := h b0 (List.mem_cons_self b0 [b1])
    have h1 : b1 < 256 := h b1 (List.mem_cons_of_mem b0 (List.mem_cons_self b1 []))
    have f0 := b64Char_facts (b0 / 4) (by omega)
    have f1 := b64Char_facts (b0 % 4 * 16 + b1 / 16) (by omega)
    have f2 := b64Char_facts (b1 % 16 * 4) (by omega)
    simp [b64encode, b64decodeGroups, f0.1, f1.1, f2.1, f2.2.2]
    omega
  | b0 :: b1 :: b2 :: rest, h => by
    have h0 : b0 < 256 := h b0 (by simp)
    have h1 : b1 < 256 := h b1 (by simp)
    have h2 : b2 < 256 := h b2 (by simp)
    have f0 := b64Char_facts (b0 / 4) (by omega)
    have f1 := b64Char_facts (b0 % 4 * 16 + b1 / 16) (by omega)
    have f2 := b64Char_facts (b1 % 16 * 4 + b2 / 64) (by omega)
    have f3 := b64Char_facts (b2 % 64) (by omega)
    have hrec := b64decodeGroups_encode rest (fun b hb => h b (by simp [hb]))
    simp [b64encode, b64decodeGroups, f0.1, f1.1, f2.1, f3.1, f2.2.2,
      f3.2.2, hrec]
    omega

/-- `b64decode` inverts `b64encode` on byte lists. -/
theorem b64decode_encode {bs : List Nat} (h : ∀ b ∈ bs, b < 256) :
    b64decode (b64encode bs) = some bs := by
  have hclean := b64encode_clean bs h
  have hno : ((b64encode bs).any fun c => 128 ≤ c) = false := by
    simp only [List.any_eq_false, decide_eq_true_eq]
    intro c hc
    have := (hclean c hc).2
    omega
  have hfilter : ((b64encode bs).filter
      fun c => (b64Val c).isSome || c = b64Pad) = b64encode bs :=
    List.filter_eq_self.2 (fun c hc => (hclean c hc).1)
  unfold b64decode
  rw [if_neg (by simp [hno]), hfilter]
  exact b64decodeGroups_encode bs h

/-- The encryption loop succeeds on bytes below 256 with a key of
bytes below 256, produces bytes below 256, and the decryption loop
inverts it index by index. -/
theorem xorLoop_decryptLoop {key : List Nat} (hne : key ≠ [])
    (hkey : ∀ k ∈ key, k < 256) :
    ∀ (data : List Nat) (i : Nat), (∀ d ∈ data, d < 256) →
      ∃ bs, xorLoop key i data = some bs ∧ (∀ b ∈ bs, b < 256) ∧
        decryptLoop key i bs = some data := by
  intro data
  induction data with
  | nil =>
    exact fun i _ => ⟨[], rfl, fun b hb => absurd hb (List.not_mem_nil b), rfl⟩
  | cons d ds ih =>
    intro i h
    have hlen : key.length ≠ 0 := fun hl => hne (List.eq_nil_of_length_eq_zero hl)
    have hd : d < 256 := h d (List.mem_cons_self d ds)
    have hkmem : key.getD (i % key.length) 0 ∈ key := by
      rw [List.getD_eq_getElem _ _ (Nat.mod_lt _ (by omega))]
      exact List.getElem_mem _
    have hklt : key.getD (i % key.length) 0 < 256 := hkey _ hkmem
    have hv : Nat.xor d (key.getD (i % key.length) 0) < 256 :=
      Nat.xor_lt_two_pow (n := 8) hd hklt
    obtain ⟨bs, hx, hblt, hdec⟩ := ih (i + 1) (fun x hx => h x (List.mem_cons_of_mem d hx))
    have hv2 : Nat.xor d ((key[i % key.length]?).getD 0) < 256 := by
      rw [← List.getD_eq_getElem?_getD]
      exact hv
    have hcancel : Nat.xor (Nat.xor d ((key[i % key.length]?).getD 0))
        ((key[i % key.length]?).getD 0) = d := Nat.xor_cancel_right _ _
    refine ⟨Nat.xor d (key.getD (i % key.length) 0) :: bs, ?_, ?_, ?_⟩
    · simp [xorLoop, hlen, hv2, hx, List.getD_eq_getElem?_getD]
    · intro b hb
      rcases List.mem_cons.1 hb with rfl | hb
      · exact hv
      · exact hblt b hb
    · simp [decryptLoop, hlen, hdec, List.getD_eq_getElem?_getD, hcancel]

/-! ## C10: XOR cipher round trip -/

/-- C10 amended.  For every string `s` and non-empty key `k` whose
code points are all below 256, `xor_decrypt (xor_encrypt s k) k`
returns exactly `s`; and whenever base64 decoding fails, `xor_decrypt`
returns its input unchanged instead of raising.  The claim's
quantification over arbitrary keys is too broad: a key character at or
above 256 makes `xor_encrypt` itself raise (see the counterexample), so
the key must be byte-valued as well. -/
theorem xor_cipher_round_trip (s k : List Nat) (hs : ∀ c ∈ s, c < 256)
    (hk : ∀ c ∈ k, c < 256) (hne : k ≠ []) :
    (∃ e, xor_encrypt s k = some e ∧ xor_decrypt e k = s) ∧
    (∀ (enc k2 : List Nat), b64decode enc = none → xor_decrypt enc k2 = enc) := by
  constructor
  · obtain ⟨bs, hx, hblt, hdec⟩ := xorLoop_decryptLoop hne hk s 0 hs
    refine ⟨b64encode bs, ?_, ?_⟩
    · simp [xor_encrypt, hx]
    · unfold xor_decrypt
      simp only [b64decode_encode hblt, hdec]
  · intro enc k2 hfail
    unfold xor_decrypt
    rw [hfail]

/-- C10 witness: the round trip at `s = "hi"` (codes 104, 105) and the
one-byte key 107, and the exception path at the input `"A"` (one base64
character is an invalid length, so `b64decode` raises). -/
theorem xor_cipher_round_trip_witness :
    ((∀ c ∈ [104, 105], c < 256) ∧ (∀ c ∈ [107], c < 256) ∧
      ([107] : List Nat) ≠ [] ∧ b64decode [65] = none) ∧
    (∃ e, xor_encrypt [104, 105] [107] = some e ∧
      xor_decrypt e [107] = [104, 105]) ∧
    xor_decrypt [65] [107] = [65] :=
  ⟨⟨by decide, by decide, by decide, by decide⟩,
   (xor_cipher_round_trip [104, 105] [107] (by decide) (by decide) (by decide)).1,
   (xor_cipher_round_trip [104, 105] [107] (by decide) (by decide)
     (by decide)).2 [65] [107] (by decide)⟩

/-- C10 counterexample.  The claim as stated quantifies over *every*
non-empty key: it fails for the key consisting of the single code point
300, since `ord('a') ^ 300 = 333` exceeds 255 and `bytearray.append`
raises, so `xor_encrypt "a"` with that key returns no ciphertext at all
(modelled as `none`) and the round trip cannot hold. -/
theorem xor_cipher_round_trip_counterexample :
    ((97 : Nat) < 256) ∧ ([300] : List Nat) ≠ [] ∧
    Nat.xor 97 300 = 333 ∧
    xor_encrypt [97] [300] = none := by
  refine ⟨by decide, by decide, by decide, by decide⟩

end FPP
